import Mathlib

/-!
# Verification of the XR Blocks core runtime against its specification

This file gives a shallow embedding of the core runtime of the repository
(`WebXRSessionManager`, the `Core` frame/physics loop, the `Core` singleton
constructor, and `PermissionsManager`) and proves or refutes the frozen
claims about it.

Modelling conventions:
* The single-threaded JS execution model is embedded as explicit state
  passing.  Methods that mutate `this` become functions `State → State × _`.
* Observable side effects (platform calls, event dispatches, renderer
  binding, field writes that listeners can observe) are recorded in traces
  (`List SMEv`, `List Ev`): the order of the trace is the order in which the
  corresponding statements execute in the source.
* A JS `throw` becomes an `Except.error` carrying the message string; a
  thrown error produces no trace, matching the fact that the statements
  after the `throw` do not run.
-/

namespace XRBlocksSpec

/-! ## WebXRSessionManager (src/core/components/WebXRSessionManager.ts)

State fields mirror the class fields:
`xrModeSupported?: boolean` (set by `initialize`), `currentSession?: XRSession`
and the `waitingForXRSession` guard.  Session handles are modelled as `Nat`.
-/

/-- Observable effects of the session manager, in program order. -/
inductive SMEv
  /-- Models `navigator.xr.requestSession(mode, sessionOptions)` is issued. -/
  | requestSessionIssued
  /-- Models `session.addEventListener('end', onSessionEndedBound)`. -/
  | addEndListener (h : Nat)
  /-- Models `await this.renderer.xr.setSession(session)` — the handle is bound to the renderer. -/
  | bindSessionToRenderer (h : Nat)
  /-- A write to the `currentSession` field that listeners can observe. -/
  | currentSessionSet (v : Option Nat)
  /-- Models `dispatchEvent({type: SESSION_START, session})` carrying the handle. -/
  | dispatchSessionStart (h : Nat)
  /-- Models `dispatchEvent({type: SESSION_END})`; `visibleHandle` is the value of
  `currentSession` at dispatch time, i.e. what a listener reading the
  manager's `currentSession` field observes during the event. -/
  | dispatchSessionEnd (visibleHandle : Option Nat)
  /-- Models `this.currentSession.end()` — the platform is asked to end the session. -/
  | platformEndCalled (h : Nat)
  /-- Models `session.removeEventListener('end', onSessionEndedBound)`. -/
  | removeEndListener (h : Nat)
deriving DecidableEq, Repr

/-- The mutable fields of `WebXRSessionManager`. -/
structure SMState where
  /-- Models `xrModeSupported?: boolean` — `none` until `initialize()` completes. -/
  xrModeSupported : Option Bool
  /-- Models `currentSession?: XRSession`. -/
  currentSession : Option Nat
  /-- Models `waitingForXRSession = false` initially. -/
  waitingForXRSession : Bool
deriving DecidableEq, Repr

/-- Models `startSession()` (WebXRSessionManager.ts lines 210–228).  The four guard
branches throw with their exact messages.  The body runs
`try { waitingForXRSession = true; navigator.xr.requestSession(...).then(...) }
finally { waitingForXRSession = false }`: the `finally` clause executes
synchronously right after the `.then` registration, so the net state change of
a successful call leaves `waitingForXRSession = false` while the request is
still in flight. -/
def startSession (s : SMState) : SMState × Except String (List SMEv) :=
  if s.xrModeSupported = none then (s, .error "Initialize not yet complete")
  else if s.xrModeSupported = some false then (s, .error "WebXR not supported")
  else if s.currentSession.isSome then (s, .error "Session already started")
  else if s.waitingForXRSession then (s, .error "Waiting for session to start")
  else ({ s with waitingForXRSession := false }, .ok [SMEv.requestSessionIssued])

/-- The trace of a `startSession()` call, empty when the call throws. -/
def startSessionTrace (s : SMState) : List SMEv :=
  match (startSession s).2 with
  | .ok t => t
  | .error _ => []

/-- Models `onSessionStartedInternal(session)` (lines 250–260): adds the `end`
listener, awaits `renderer.xr.setSession(session)`, assigns `currentSession`,
then dispatches `sessionstart` carrying the session. -/
def onSessionStartedInternal (s : SMState) (h : Nat) : SMState × List SMEv :=
  ({ s with currentSession := some h },
    [SMEv.addEndListener h, SMEv.bindSessionToRenderer h,
      SMEv.currentSessionSet (some h), SMEv.dispatchSessionStart h])

/-- Models `endSession()` (lines 233–239): throws if there is no current session;
otherwise calls `currentSession.end()` and clears the field.  No
`removeEventListener` occurs here. -/
def endSession (s : SMState) : SMState × Except String (List SMEv) :=
  match s.currentSession with
  | none => (s, .error "No session to end")
  | some h =>
      ({ s with currentSession := none },
        .ok [SMEv.platformEndCalled h, SMEv.currentSessionSet none])

/-- The trace of an `endSession()` call, empty when the call throws. -/
def endSessionTrace (s : SMState) : List SMEv :=
  match (endSession s).2 with
  | .ok t => t
  | .error _ => []

/-- Models `onSessionEndedInternal()` (lines 262–269), the callback attached to the
platform session's terminal `end` event: it dispatches `sessionend` FIRST
(with `currentSession` still holding whatever value it has), then runs
`this.currentSession?.removeEventListener(...)` (skipped when the field is
already `undefined`), then clears the field. -/
def onSessionEndedInternal (s : SMState) : SMState × List SMEv :=
  match s.currentSession with
  | some h =>
      ({ s with currentSession := none },
        [SMEv.dispatchSessionEnd (some h), SMEv.removeEndListener h,
          SMEv.currentSessionSet none])
  | none =>
      ({ s with currentSession := none },
        [SMEv.dispatchSessionEnd none, SMEv.currentSessionSet none])

/-- The READY state of the spec state machine: `initialize()` has resolved
with support, no session is active, and no start is recorded in flight. -/
def isReady (s : SMState) : Prop :=
  s.xrModeSupported = some true ∧ s.currentSession = none ∧
    s.waitingForXRSession = false

instance (s : SMState) : Decidable (isReady s) := by
  unfold isReady; infer_instance

/-- The manager state right after a successful `initialize()` resolves with
platform support (READY). -/
def readyState : SMState :=
  { xrModeSupported := some true, currentSession := none,
    waitingForXRSession := false }

/-- Recognizes a `sessionend` dispatch in a trace. -/
def isSessionEndDispatch : SMEv → Bool
  | SMEv.dispatchSessionEnd _ => true
  | _ => false

/-- A whole session lifecycle from READY: `startSession()`, the platform
resolving `requestSession` with handle `h` (running
`onSessionStartedInternal`), then either the platform ending the session on
its own (`platformInitiated = true`: the session's single terminal `end`
event fires) or the application calling `endSession()` followed by the
platform's single terminal `end` event. -/
def sessionLifecycle (h : Nat) (platformInitiated : Bool) : List SMEv :=
  let r1 := startSession readyState
  let tr1 := startSessionTrace readyState
  let p2 := onSessionStartedInternal r1.1 h
  if platformInitiated then
    tr1 ++ p2.2 ++ (onSessionEndedInternal p2.1).2
  else
    let r3 := endSession p2.1
    tr1 ++ p2.2 ++ endSessionTrace p2.1 ++ (onSessionEndedInternal r3.1).2

/-! ### Claims about the session manager -/

/-- C2: the claim says that of two `startSession()` calls made from READY
while the first request is still in flight, the second must fail
("Waiting for session to start").  The code violates this: the `finally`
clause resets `waitingForXRSession` synchronously before the request
resolves, so the second call passes every guard and issues a second
platform `requestSession` — a double start.  This theorem evaluates the
model at that failing input: both calls succeed and both issue a request. -/
theorem c2_double_start_not_rejected :
    (startSession readyState).2 = .ok [SMEv.requestSessionIssued] ∧
    (startSession (startSession readyState).1).2 =
      .ok [SMEv.requestSessionIssued] := by
  exact ⟨rfl, rfl⟩

/-- C4: whenever the state is not READY, `startSession()` throws, the state
is unchanged, no `requestSession` is issued, and the four failure conditions
(not yet initialized / unsupported / already active / already starting) are
reported with four pairwise distinct reasons. -/
theorem c4_start_session_invalid_states (s : SMState) (hns : ¬ isReady s) :
    (startSession s).1 = s ∧
    startSessionTrace s = [] ∧
    (∃ msg, (startSession s).2 = .error msg) ∧
    (s.xrModeSupported = none →
      (startSession s).2 = .error "Initialize not yet complete") ∧
    (s.xrModeSupported = some false →
      (startSession s).2 = .error "WebXR not supported") ∧
    (s.xrModeSupported = some true → s.currentSession.isSome →
      (startSession s).2 = .error "Session already started") ∧
    (s.xrModeSupported = some true → s.currentSession = none →
      s.waitingForXRSession = true →
      (startSession s).2 = .error "Waiting for session to start") ∧
    ("Initialize not yet complete" ≠ "WebXR not supported" ∧
      "Initialize not yet complete" ≠ "Session already started" ∧
      "Initialize not yet complete" ≠ "Waiting for session to start" ∧
      "WebXR not supported" ≠ "Session already started" ∧
      "WebXR not supported" ≠ "Waiting for session to start" ∧
      "Session already started" ≠ "Waiting for session to start") := by
  rcases s with ⟨sup, cur, wait⟩
  unfold isReady at hns
  rcases sup with _ | sup
  · refine ⟨rfl, rfl, ⟨"Initialize not yet complete", rfl⟩, ?_⟩
    repeat' constructor
    all_goals simp_all [startSession, startSessionTrace]
  · rcases sup with _ | _
    · refine ⟨rfl, rfl, ⟨"WebXR not supported", rfl⟩, ?_⟩
      repeat' constructor
      all_goals simp_all [startSession, startSessionTrace]
    · rcases cur with _ | hsess
      · rcases wait with _ | _
        · exact absurd ⟨rfl, rfl, rfl⟩ hns
        · refine ⟨rfl, rfl, ⟨"Waiting for session to start", rfl⟩, ?_⟩
          repeat' constructor
          all_goals simp_all [startSession, startSessionTrace]
      · refine ⟨rfl, rfl, ⟨"Session already started", rfl⟩, ?_⟩
        repeat' constructor
        all_goals simp_all [startSession, startSessionTrace]

/-- Witness for `c4_start_session_invalid_states` at the concrete
uninitialized state. -/
theorem c4_start_session_invalid_states_witness :
    (startSession ⟨none, none, false⟩).1 = (⟨none, none, false⟩ : SMState) ∧
    (startSession ⟨none, none, false⟩).2 =
      .error "Initialize not yet complete" := by
  have h := c4_start_session_invalid_states ⟨none, none, false⟩ (by decide)
  exact ⟨h.1, h.2.2.2.1 rfl⟩

/-- C5: on a successful start, `onSessionStartedInternal` binds the handle to
the renderer, then records it in `currentSession` (the ACTIVE transition),
and only then dispatches `sessionstart` carrying that handle: every
`sessionstart` dispatch in the callback's trace occurs strictly after the
renderer binding. -/
theorem c5_sessionstart_after_renderer_bind (s : SMState) (h : Nat) :
    (onSessionStartedInternal s h).1.currentSession = some h ∧
    SMEv.dispatchSessionStart h ∈ (onSessionStartedInternal s h).2 ∧
    (∀ i j : Nat, ((onSessionStartedInternal s h).2)[i]? =
        some (SMEv.dispatchSessionStart h) →
      ((onSessionStartedInternal s h).2)[j]? =
        some (SMEv.bindSessionToRenderer h) →
      j < i) ∧
    (∀ i j : Nat, ((onSessionStartedInternal s h).2)[i]? =
        some (SMEv.dispatchSessionStart h) →
      ((onSessionStartedInternal s h).2)[j]? =
        some (SMEv.currentSessionSet (some h)) →
      j < i) := by
  refine ⟨rfl, by simp [onSessionStartedInternal], ?_, ?_⟩ <;>
  · intro i j hi hj
    rcases i with _ | _ | _ | _ | i <;>
      simp only [onSessionStartedInternal] at hi <;>
      rcases j with _ | _ | _ | _ | j <;>
      simp_all [onSessionStartedInternal]

/-- Witness for `c5_sessionstart_after_renderer_bind` at a concrete state,
handle and indices. -/
theorem c5_sessionstart_after_renderer_bind_witness :
    (onSessionStartedInternal readyState 7).1.currentSession = some 7 ∧
    SMEv.dispatchSessionStart 7 ∈ (onSessionStartedInternal readyState 7).2 ∧
    (1 : Nat) < 3 ∧ (2 : Nat) < 3 := by
  have h := c5_sessionstart_after_renderer_bind readyState 7
  exact ⟨h.1, h.2.1, h.2.2.1 3 1 rfl rfl, h.2.2.2 3 2 rfl rfl⟩

/-- C6 counterexample: the claim says `sessionend` is emitted only after the
handle is fully released, so a listener never observes a stale handle.  On a
platform-initiated end (the session's `end` event firing while the manager
still holds the handle), `onSessionEndedInternal` dispatches `sessionend`
FIRST, while `currentSession` is still `some 7`: a listener reading the
manager during the event observes the stale handle. -/
theorem c6_stale_handle_counterexample :
    SMEv.dispatchSessionEnd (some 7) ∈
      (onSessionEndedInternal
        ⟨some true, some 7, false⟩).2 ∧
    (some 7 : Option Nat) ≠ none := by
  exact ⟨by simp [onSessionStartedInternal, onSessionEndedInternal], by simp⟩

/-- C6 amended: `endSession()` fails with an invalid-state error if no active
handle exists; otherwise it calls `end()` on the handle and clears the field
immediately.  The `sessionend` event is dispatched by the end-notification
callback BEFORE that callback clears the handle: after an application-initiated
`endSession()` the listener observes no handle (the field was already cleared
synchronously), but on a platform-initiated end the listener observes the
still-bound handle. -/
theorem c6_end_session_amended (s : SMState) :
    (s.currentSession = none →
      endSession s = (s, .error "No session to end")) ∧
    (∀ h : Nat, s.currentSession = some h →
      (endSession s).1.currentSession = none ∧
      SMEv.platformEndCalled h ∈ endSessionTrace s ∧
      (onSessionEndedInternal (endSession s).1).2.head? =
        some (SMEv.dispatchSessionEnd none) ∧
      (onSessionEndedInternal s).2.head? =
        some (SMEv.dispatchSessionEnd (some h))) := by
  rcases s with ⟨sup, cur, wait⟩
  constructor
  · intro hnone
    simp only at hnone
    subst hnone
    rfl
  · intro h hcur
    simp only at hcur
    subst hcur
    refine ⟨rfl, ?_, rfl, rfl⟩
    simp [endSessionTrace, endSession]

/-- Witness for `c6_end_session_amended` at concrete states. -/
theorem c6_end_session_amended_witness :
    (endSession readyState =
      (readyState, .error "No session to end")) ∧
    ((endSession ⟨some true, some 7, false⟩).1.currentSession = none ∧
      SMEv.platformEndCalled 7 ∈ endSessionTrace ⟨some true, some 7, false⟩ ∧
      (onSessionEndedInternal
          (endSession ⟨some true, some 7, false⟩).1).2.head? =
        some (SMEv.dispatchSessionEnd none) ∧
      (onSessionEndedInternal ⟨some true, some 7, false⟩).2.head? =
        some (SMEv.dispatchSessionEnd (some 7))) :=
  ⟨(c6_end_session_amended readyState).1 rfl,
    (c6_end_session_amended ⟨some true, some 7, false⟩).2 7 rfl⟩

/-- C7 counterexample: the claim says ending a session synchronously detaches
the platform's session-end handler before clearing the handle.  In the code,
`endSession()` on an active session clears the handle without any
`removeEventListener` at all: its trace contains the field clear but no
detach. -/
theorem c7_no_detach_counterexample :
    SMEv.currentSessionSet none ∈
      endSessionTrace ⟨some true, some 7, false⟩ ∧
    SMEv.removeEndListener 7 ∉
      endSessionTrace ⟨some true, some 7, false⟩ := by
  exact ⟨by simp [endSessionTrace, endSession], by simp [endSessionTrace, endSession]⟩

/-- C7 amended: ending a session does NOT detach the platform's session-end
handler before clearing the handle.  On an application-initiated end the
handler removal in the end callback is skipped entirely (the handle is already
cleared when the callback runs); on a platform-initiated end the handler is
removed after the `sessionend` dispatch.  Exactly one `sessionend` event per
session is still emitted in either case, because the platform session fires
its terminal `end` notification exactly once. -/
theorem c7_detach_amended (h : Nat) :
    (sessionLifecycle h true).countP isSessionEndDispatch = 1 ∧
    (sessionLifecycle h false).countP isSessionEndDispatch = 1 ∧
    SMEv.removeEndListener h ∉ sessionLifecycle h false ∧
    SMEv.removeEndListener h ∈ sessionLifecycle h true := by
  refine ⟨?_, ?_, ?_, ?_⟩ <;>
    simp [sessionLifecycle, startSession, startSessionTrace, readyState,
      onSessionStartedInternal, endSession, endSessionTrace,
      onSessionEndedInternal, isSessionEndDispatch]

/-! ## Core frame loop (src/core/Core.ts: `update`, `physicsStep`, `init`)

`Core.update` is a straight-line method: each statement either always runs or
runs under one of the two `if`s (`simulatorRunning`, `lighting`), and the
script/controller loops expand in list order.  We embed the method as a
*plan*: the list of observable steps in program order, each paired with a
flag saying whether that step throws (only script hooks can throw; the model
records each script's per-hook behavior).  `runList` executes a plan with JS
exception semantics: a throwing step runs (and is recorded) and every later
step of the method is skipped, since `update` contains no try/catch.
`coreUpdateTrace` is the plan's step list itself — the order in which the
statements execute when nothing throws. -/

/-- Per-script hook behavior: whether each hook throws when invoked. -/
structure ScriptB where
  updateThrows : Bool
  selectingThrows : Bool
  squeezingThrows : Bool
deriving DecidableEq, Repr

/-- A controller's transient interaction state
(`controller.userData.selected` / `controller.userData.squeezing`). -/
structure Controller where
  selected : Bool
  squeezing : Bool
deriving DecidableEq, Repr

/-- The parts of `Core`'s state that `update` reads. -/
structure CoreSt where
  simulatorRunning : Bool
  hasLighting : Bool
  /-- Models `scriptsManager.scripts`, in iteration order. -/
  scripts : List ScriptB
  /-- Models `input.controllers`, in iteration order. -/
  controllers : List Controller
deriving DecidableEq, Repr

/-- Observable steps of the frame cycle and of a physics tick, named after
the statements of `Core.update` / `Core.physicsStep`. -/
inductive Ev
  | setCurrentFrame
  | timerUpdate
  | simulatorStep
  | depthUpdate
  | lightingUpdate
  /-- Models `scriptsManager.syncScriptsWithScene(this.scene)`. -/
  | syncScripts
  /-- Models `script.ux.reset()` on script `i`. -/
  | uxReset (i : Nat)
  | inputUpdate
  /-- Models `script.onSelecting({target: controller})`: controller `c`, script `i`. -/
  | onSelecting (c i : Nat)
  /-- Models `script.onSqueezing({target: controller})`: controller `c`, script `i`. -/
  | onSqueezing (c i : Nat)
  /-- Models `waitFrame.onFrame()` — deferred next-frame callbacks are flushed. -/
  | waitFrameFlush
  /-- Models `script.update(time, frame)` on script `i`. -/
  | scriptUpdate (i : Nat)
  /-- Models `renderSimulatorAndScene()`. -/
  | render
  /-- Models `screenshotSynthesizer.onAfterRender(...)`. -/
  | afterRenderCapture
  | simulatorRender
  /-- Models `physics.physicsStep()` — one physics-world integration. -/
  | physicsIntegrate
  /-- Models `script.physicsStep()` on script `i`. -/
  | physicsHook (i : Nat)
deriving DecidableEq, Repr

/-- The position of each step kind in the fixed per-frame order of
`Core.update` (identical phase = same loop / adjacent unconditional
statements; physics steps never occur in the frame cycle and get a phase
far above every frame phase). -/
def phase : Ev → Nat
  | .setCurrentFrame => 0
  | .timerUpdate => 0
  | .simulatorStep => 0
  | .depthUpdate => 0
  | .lightingUpdate => 0
  | .syncScripts => 1
  | .uxReset _ => 2
  | .inputUpdate => 3
  | .onSelecting _ _ => 4
  | .onSqueezing _ _ => 5
  | .waitFrameFlush => 6
  | .scriptUpdate _ => 7
  | .render => 8
  | .afterRenderCapture => 9
  | .simulatorRender => 10
  | .physicsIntegrate => 99
  | .physicsHook _ => 99

/-- Phase-nondecreasing relation on steps. -/
def phaseLE (a b : Ev) : Prop := phase a ≤ phase b

/-- A loop `for (const script of scripts) { script.hook() }` as a plan:
script `j` (counting from `k`) contributes step `tag (k + j)`, throwing when
`g` of its behavior holds. -/
def hookPlanAux (tag : Nat → Ev) (g : ScriptB → Bool) :
    Nat → List ScriptB → List (Ev × Bool)
  | _, [] => []
  | i, s :: rest => (tag i, g s) :: hookPlanAux tag g (i + 1) rest

/-- The nested loops `for (controller of controllers) if (f controller)
for (script of scripts) { script.hook({target: controller}) }` as a plan. -/
def interactionPlanAux (scripts : List ScriptB) (f : Controller → Bool)
    (g : ScriptB → Bool) (tag : Nat → Nat → Ev) :
    Nat → List Controller → List (Ev × Bool)
  | _, [] => []
  | c, ctrl :: rest =>
      (if f ctrl then hookPlanAux (tag c) g 0 scripts else []) ++
        interactionPlanAux scripts f g tag (c + 1) rest

/-- The steps of `Core.update` before the continuing-selection pass, in
program order (lines 670–689): frame capture, timer, optional simulator
step, depth, optional lighting, script sync, the `ux.reset()` loop and
`input.update()`.  None of these steps can throw in the model. -/
def corePlanPreInput (st : CoreSt) : List (Ev × Bool) :=
  [(Ev.setCurrentFrame, false), (Ev.timerUpdate, false)] ++
    (if st.simulatorRunning then [(Ev.simulatorStep, false)] else []) ++
    [(Ev.depthUpdate, false)] ++
    (if st.hasLighting then [(Ev.lightingUpdate, false)] else []) ++
    [(Ev.syncScripts, false)] ++
    hookPlanAux Ev.uxReset (fun _ => false) 0 st.scripts ++
    [(Ev.inputUpdate, false)]

/-- The continuing-selection pass (lines 692–698): `onSelecting` on every
script, for every controller whose `selected` state is set. -/
def corePlanSelecting (st : CoreSt) : List (Ev × Bool) :=
  interactionPlanAux st.scripts (fun c => c.selected)
    (fun s => s.selectingThrows) Ev.onSelecting 0 st.controllers

/-- The continuing-squeeze pass (lines 700–706): `onSqueezing` on every
script, for every controller whose `squeezing` state is set. -/
def corePlanSqueezing (st : CoreSt) : List (Ev × Bool) :=
  interactionPlanAux st.scripts (fun c => c.squeezing)
    (fun s => s.squeezingThrows) Ev.onSqueezing 0 st.controllers

/-- The steps of `Core.update` before the `script.update` loop, in program
order (lines 670–710). -/
def corePlanPre (st : CoreSt) : List (Ev × Bool) :=
  corePlanPreInput st ++ corePlanSelecting st ++ corePlanSqueezing st ++
    [(Ev.waitFrameFlush, false)]

/-- The `script.update(time, frame)` loop (lines 712–714). -/
def corePlanUpd (st : CoreSt) : List (Ev × Bool) :=
  hookPlanAux Ev.scriptUpdate (fun s => s.updateThrows) 0 st.scripts

/-- The steps of `Core.update` after the `script.update` loop
(lines 716–724). -/
def corePlanPost (st : CoreSt) : List (Ev × Bool) :=
  [(Ev.render, false), (Ev.afterRenderCapture, false)] ++
    (if st.simulatorRunning then [(Ev.simulatorRender, false)] else [])

/-- The whole `Core.update` body as a plan, in program order. -/
def coreUpdatePlan (st : CoreSt) : List (Ev × Bool) :=
  corePlanPre st ++ (corePlanUpd st ++ corePlanPost st)

/-- The statement order of a frame cycle in which no hook throws. -/
def coreUpdateTrace (st : CoreSt) : List Ev :=
  (coreUpdatePlan st).map Prod.fst

/-- Executes a plan with exception semantics: steps run in order; a throwing
step runs and aborts the rest of the method (no try/catch in `update`).
Returns the executed steps and whether an exception escaped. -/
def runList : List (Ev × Bool) → List Ev × Bool
  | [] => ([], false)
  | p :: rest =>
      if p.2 then ([p.1], true)
      else (p.1 :: (runList rest).1, (runList rest).2)

/-- One frame cycle with exception propagation. -/
def coreUpdateRun (st : CoreSt) : List Ev × Bool :=
  runList (coreUpdatePlan st)

/-- The method `Core.init` starts the physics driver only when a physics subsystem is
configured: `if (this.physics) setInterval(physicsStep, 1000 * timestep)`
(lines 641–643).  Returns the interval of the started timer in
milliseconds, or `none` when no timer is started. -/
def coreInitPhysicsTimer (physicsTimestep : Option ℚ) : Option ℚ :=
  match physicsTimestep with
  | some timestep => some (1000 * timestep)
  | none => none

/-- One tick of `Core.physicsStep` (lines 731–736): exactly one
physics-world integration, then the `physicsStep` hook on every script. -/
def physicsTickTrace (numScripts : Nat) : List Ev :=
  Ev.physicsIntegrate :: (List.range numScripts).map Ev.physicsHook

/-- The physics steps executed over `ticks` timer firings: none at all when
no timer was started. -/
def physicsRun (timer : Option ℚ) (numScripts ticks : Nat) : List Ev :=
  match timer with
  | none => []
  | some _ => (List.range ticks).flatMap fun _ => physicsTickTrace numScripts

/-! ### Helper lemmas about the plan combinators -/

theorem hookPlanAux_pairs (tag : Nat → Ev) (g : ScriptB → Bool)
    (scripts : List ScriptB) (k : Nat) (p : Ev × Bool) :
    p ∈ hookPlanAux tag g k scripts ↔
      ∃ j b, scripts[j]? = some b ∧ p = (tag (k + j), g b) := by
  induction scripts generalizing k with
  | nil => simp [hookPlanAux]
  | cons s rest ih =>
    simp only [hookPlanAux, List.mem_cons, ih]
    constructor
    · rintro (rfl | ⟨j, b, hj, rfl⟩)
      · exact ⟨0, s, by simp, by simp⟩
      · exact ⟨j + 1, b, by simpa using hj,
          by rw [show k + (j + 1) = k + 1 + j from by omega]⟩
    · rintro ⟨j, b, hj, rfl⟩
      cases j with
      | zero =>
        simp only [List.getElem?_cons_zero, Option.some_inj] at hj
        subst hj
        exact Or.inl (by simp)
      | succ j =>
        refine Or.inr ⟨j, b, by simpa using hj,
          by rw [show k + 1 + j = k + (j + 1) from by omega]⟩

theorem hookPlanAux_mem_fst (tag : Nat → Ev) (g : ScriptB → Bool)
    (scripts : List ScriptB) (k : Nat) (e : Ev) :
    e ∈ (hookPlanAux tag g k scripts).map Prod.fst ↔
      ∃ j, j < scripts.length ∧ e = tag (k + j) := by
  simp only [List.mem_map]
  constructor
  · rintro ⟨p, hp, rfl⟩
    obtain ⟨j, b, hj, rfl⟩ := (hookPlanAux_pairs tag g scripts k p).mp hp
    exact ⟨j, (List.getElem?_eq_some_iff.mp hj).1, rfl⟩
  · rintro ⟨j, hj, rfl⟩
    refine ⟨(tag (k + j), g (scripts[j])), ?_, rfl⟩
    exact (hookPlanAux_pairs tag g scripts k _).mpr
      ⟨j, scripts[j], List.getElem?_eq_getElem hj, rfl⟩

theorem interactionPlanAux_pairs (scripts : List ScriptB)
    (f : Controller → Bool) (g : ScriptB → Bool) (tag : Nat → Nat → Ev)
    (ctrls : List Controller) (k : Nat) (p : Ev × Bool) :
    p ∈ interactionPlanAux scripts f g tag k ctrls ↔
      ∃ j ctrl, ctrls[j]? = some ctrl ∧ f ctrl = true ∧
        ∃ i b, scripts[i]? = some b ∧ p = (tag (k + j) i, g b) := by
  induction ctrls generalizing k with
  | nil => simp [interactionPlanAux]
  | cons ctrl rest ih =>
    simp only [interactionPlanAux, List.mem_append, ih]
    constructor
    · rintro (hmem | ⟨j, c2, hj, hf, i, b, hi, rfl⟩)
      · rcases hfc : f ctrl with _ | _
        · simp [hfc] at hmem
        · simp only [hfc, if_true] at hmem
          obtain ⟨i, b, hi, rfl⟩ :=
            (hookPlanAux_pairs (tag k) g scripts 0 p).mp hmem
          exact ⟨0, ctrl, by simp, hfc, i, b, hi, by simp⟩
      · exact ⟨j + 1, c2, by simpa using hj, hf, i, b, hi,
          by rw [show k + (j + 1) = k + 1 + j from by omega]⟩
    · rintro ⟨j, c2, hj, hf, i, b, hi, rfl⟩
      cases j with
      | zero =>
        simp only [List.getElem?_cons_zero, Option.some_inj] at hj
        subst hj
        refine Or.inl ?_
        simp only [hf, if_true]
        exact (hookPlanAux_pairs (tag k) g scripts 0 _).mpr
          ⟨i, b, hi, by simp⟩
      | succ j =>
        refine Or.inr ⟨j, c2, by simpa using hj, hf, i, b, hi,
          by rw [show k + 1 + j = k + (j + 1) from by omega]⟩

theorem interactionPlanAux_mem_fst (scripts : List ScriptB)
    (f : Controller → Bool) (g : ScriptB → Bool) (tag : Nat → Nat → Ev)
    (ctrls : List Controller) (k : Nat) (e : Ev) :
    e ∈ (interactionPlanAux scripts f g tag k ctrls).map Prod.fst ↔
      ∃ j ctrl, ctrls[j]? = some ctrl ∧ f ctrl = true ∧
        ∃ i, i < scripts.length ∧ e = tag (k + j) i := by
  simp only [List.mem_map]
  constructor
  · rintro ⟨p, hp, rfl⟩
    obtain ⟨j, c2, hj, hf, i, b, hi, rfl⟩ :=
      (interactionPlanAux_pairs scripts f g tag ctrls k p).mp hp
    exact ⟨j, c2, hj, hf, i, (List.getElem?_eq_some_iff.mp hi).1, rfl⟩
  · rintro ⟨j, c2, hj, hf, i, hi, rfl⟩
    refine ⟨(tag (k + j) i, g (scripts[i])), ?_, rfl⟩
    exact (interactionPlanAux_pairs scripts f g tag ctrls k _).mpr
      ⟨j, c2, hj, hf, i, scripts[i], List.getElem?_eq_getElem hi, rfl⟩

/-- Bounding the phases of an appended plan chunk by chunk. -/
theorem phase_le_append {n : Nat} {l₁ l₂ : List (Ev × Bool)}
    (h₁ : ∀ p ∈ l₁, phase p.1 ≤ n) (h₂ : ∀ p ∈ l₂, phase p.1 ≤ n) :
    ∀ p ∈ l₁ ++ l₂, phase p.1 ≤ n := by
  intro p hp
  rcases List.mem_append.mp hp with h | h
  · exact h₁ p h
  · exact h₂ p h

/-- Every step before the continuing-selection pass has phase at most 3. -/
theorem corePlanPreInput_phase (st : CoreSt) :
    ∀ p ∈ corePlanPreInput st, phase p.1 ≤ 3 := by
  have hhook : ∀ p ∈ hookPlanAux Ev.uxReset (fun _ => false) 0 st.scripts,
      phase p.1 ≤ 3 := by
    intro p hp
    obtain ⟨j, b, hj, rfl⟩ := (hookPlanAux_pairs _ _ _ _ _).mp hp
    simp [phase]
  have hifs : ∀ p ∈ (if st.simulatorRunning then
      [(Ev.simulatorStep, false)] else []), phase p.1 ≤ 3 := by
    split <;> decide
  have hifl : ∀ p ∈ (if st.hasLighting then
      [(Ev.lightingUpdate, false)] else []), phase p.1 ≤ 3 := by
    split <;> decide
  unfold corePlanPreInput
  exact phase_le_append (phase_le_append (phase_le_append (phase_le_append
    (phase_le_append (phase_le_append (by decide) hifs) (by decide)) hifl)
    (by decide)) hhook) (by decide)

/-- Every step of the continuing-selection pass has phase 4. -/
theorem corePlanSelecting_phase (st : CoreSt) :
    ∀ p ∈ corePlanSelecting st, phase p.1 = 4 := by
  intro p hp
  obtain ⟨j, c2, hj, hf, i, b, hi, rfl⟩ :=
    (interactionPlanAux_pairs _ _ _ _ _ _ _).mp hp
  rfl

/-- Every step of the continuing-squeeze pass has phase 5. -/
theorem corePlanSqueezing_phase (st : CoreSt) :
    ∀ p ∈ corePlanSqueezing st, phase p.1 = 5 := by
  intro p hp
  obtain ⟨j, c2, hj, hf, i, b, hi, rfl⟩ :=
    (interactionPlanAux_pairs _ _ _ _ _ _ _).mp hp
  rfl

/-- Every step of the pre-update part of the plan has phase at most 6. -/
theorem corePlanPre_phase (st : CoreSt) :
    ∀ p ∈ corePlanPre st, phase p.1 ≤ 6 := by
  unfold corePlanPre
  refine phase_le_append (phase_le_append (phase_le_append ?_ ?_) ?_)
    (by decide)
  · exact fun p hp => le_trans (corePlanPreInput_phase st p hp) (by omega)
  · intro p hp
    rw [corePlanSelecting_phase st p hp]
    omega
  · intro p hp
    rw [corePlanSqueezing_phase st p hp]
    omega

/-- Every step of the whole plan has phase at most 10 (so in particular no
physics step ever appears in a frame cycle). -/
theorem coreUpdatePlan_phase (st : CoreSt) :
    ∀ p ∈ coreUpdatePlan st, phase p.1 ≤ 10 := by
  have hpre : ∀ p ∈ corePlanPre st, phase p.1 ≤ 10 :=
    fun p hp => le_trans (corePlanPre_phase st p hp) (by omega)
  have hupd : ∀ p ∈ corePlanUpd st, phase p.1 ≤ 10 := by
    intro p hp
    obtain ⟨j, b, hj, rfl⟩ := (hookPlanAux_pairs _ _ _ _ _).mp hp
    simp [phase]
  have hifs : ∀ p ∈ (if st.simulatorRunning then
      [(Ev.simulatorRender, false)] else []), phase p.1 ≤ 10 := by
    split <;> decide
  have hpost : ∀ p ∈ corePlanPost st, phase p.1 ≤ 10 := by
    unfold corePlanPost
    exact phase_le_append (by decide) hifs
  unfold coreUpdatePlan
  exact phase_le_append hpre (phase_le_append hupd hpost)

/-! ### Phase ordering of the frame cycle -/

/-- A list all of whose steps share one phase is phase-sorted. -/
theorem pairwise_phaseLE_of_const {l : List Ev} {n : Nat}
    (h : ∀ e ∈ l, phase e = n) : l.Pairwise phaseLE := by
  induction l with
  | nil => exact List.Pairwise.nil
  | cons e rest ih =>
    refine List.Pairwise.cons ?_ (ih fun x hx => h x (List.mem_cons_of_mem _ hx))
    intro x hx
    unfold phaseLE
    rw [h e (List.mem_cons_self _ _), h x (List.mem_cons_of_mem _ hx)]

/-- Concatenating a list of chunks whose phases are constant per chunk and
nondecreasing across chunks yields a phase-sorted list. -/
theorem pairwise_phase_flatten (cs : List (Nat × List Ev))
    (hmono : (cs.map Prod.fst).Pairwise (· ≤ ·))
    (hconst : ∀ q ∈ cs, ∀ e ∈ q.2, phase e = q.1) :
    ((cs.map Prod.snd).flatten).Pairwise phaseLE := by
  induction cs with
  | nil => simp
  | cons q rest ih =>
    simp only [List.map_cons, List.flatten_cons]
    simp only [List.map_cons, List.pairwise_cons] at hmono
    refine List.pairwise_append.mpr ⟨?_, ?_, ?_⟩
    · exact pairwise_phaseLE_of_const (hconst q (List.mem_cons_self _ _))
    · exact ih hmono.2 fun q2 hq2 => hconst q2 (List.mem_cons_of_mem _ hq2)
    · intro a ha b hb
      obtain ⟨l, hl, hbl⟩ := List.mem_flatten.mp hb
      obtain ⟨q2, hq2, rfl⟩ := List.mem_map.mp hl
      unfold phaseLE
      rw [hconst q (List.mem_cons_self _ _) a ha, hconst q2 (List.mem_cons_of_mem _ hq2) b hbl]
      exact hmono.1 q2.1 (List.mem_map_of_mem Prod.fst hq2)

/-- The steps of a frame cycle execute in the fixed phase order of
`Core.update`. -/
theorem coreUpdateTrace_sorted (st : CoreSt) :
    (coreUpdateTrace st).Pairwise phaseLE := by
  have hUxAll : ∀ e ∈ (hookPlanAux Ev.uxReset (fun _ => false)
      0 st.scripts).map Prod.fst, phase e = 2 := by
    intro e he
    obtain ⟨j, hj, rfl⟩ := (hookPlanAux_mem_fst _ _ _ _ _).mp he
    simp [phase]
  have hSelAll : ∀ e ∈ (interactionPlanAux st.scripts (fun c => c.selected)
      (fun s => s.selectingThrows) Ev.onSelecting 0 st.controllers).map
        Prod.fst, phase e = 4 := by
    intro e he
    obtain ⟨j, c2, hj, hf, i, hi, rfl⟩ :=
      (interactionPlanAux_mem_fst _ _ _ _ _ _ _).mp he
    simp [phase]
  have hSqAll : ∀ e ∈ (interactionPlanAux st.scripts (fun c => c.squeezing)
      (fun s => s.squeezingThrows) Ev.onSqueezing 0 st.controllers).map
        Prod.fst, phase e = 5 := by
    intro e he
    obtain ⟨j, c2, hj, hf, i, hi, rfl⟩ :=
      (interactionPlanAux_mem_fst _ _ _ _ _ _ _).mp he
    simp [phase]
  have hUpdAll : ∀ e ∈ (hookPlanAux Ev.scriptUpdate (fun s => s.updateThrows)
      0 st.scripts).map Prod.fst, phase e = 7 := by
    intro e he
    obtain ⟨j, hj, rfl⟩ := (hookPlanAux_mem_fst _ _ _ _ _).mp he
    simp [phase]
  have key := pairwise_phase_flatten
    [(0, [Ev.setCurrentFrame, Ev.timerUpdate]),
      (0, (if st.simulatorRunning then [(Ev.simulatorStep, false)]
        else []).map Prod.fst),
      (0, [Ev.depthUpdate]),
      (0, (if st.hasLighting then [(Ev.lightingUpdate, false)]
        else []).map Prod.fst),
      (1, [Ev.syncScripts]),
      (2, (hookPlanAux Ev.uxReset (fun _ => false) 0 st.scripts).map Prod.fst),
      (3, [Ev.inputUpdate]),
      (4, (interactionPlanAux st.scripts (fun c => c.selected)
        (fun s => s.selectingThrows) Ev.onSelecting 0 st.controllers).map
          Prod.fst),
      (5, (interactionPlanAux st.scripts (fun c => c.squeezing)
        (fun s => s.squeezingThrows) Ev.onSqueezing 0 st.controllers).map
          Prod.fst),
      (6, [Ev.waitFrameFlush]),
      (7, (hookPlanAux Ev.scriptUpdate (fun s => s.updateThrows)
        0 st.scripts).map Prod.fst),
      (8, [Ev.render]),
      (9, [Ev.afterRenderCapture]),
      (10, (if st.simulatorRunning then [(Ev.simulatorRender, false)]
        else []).map Prod.fst)]
    (by simp only [List.map_cons, List.map_nil]; decide)
    (by
      intro q hq
      simp only [List.mem_cons, List.not_mem_nil, or_false] at hq
      rcases hq with rfl | rfl | rfl | rfl | rfl | rfl | rfl | rfl | rfl |
        rfl | rfl | rfl | rfl | rfl
      · decide
      · split <;> decide
      · decide
      · split <;> decide
      · decide
      · exact hUxAll
      · decide
      · exact hSelAll
      · exact hSqAll
      · decide
      · exact hUpdAll
      · decide
      · decide
      · split <;> decide)
  have heq : coreUpdateTrace st =
      (([(0, [Ev.setCurrentFrame, Ev.timerUpdate]),
        (0, (if st.simulatorRunning then [(Ev.simulatorStep, false)]
          else []).map Prod.fst),
        (0, [Ev.depthUpdate]),
        (0, (if st.hasLighting then [(Ev.lightingUpdate, false)]
          else []).map Prod.fst),
        (1, [Ev.syncScripts]),
        (2, (hookPlanAux Ev.uxReset (fun _ => false)
          0 st.scripts).map Prod.fst),
        (3, [Ev.inputUpdate]),
        (4, (interactionPlanAux st.scripts (fun c => c.selected)
          (fun s => s.selectingThrows) Ev.onSelecting 0 st.controllers).map
            Prod.fst),
        (5, (interactionPlanAux st.scripts (fun c => c.squeezing)
          (fun s => s.squeezingThrows) Ev.onSqueezing 0 st.controllers).map
            Prod.fst),
        (6, [Ev.waitFrameFlush]),
        (7, (hookPlanAux Ev.scriptUpdate (fun s => s.updateThrows)
          0 st.scripts).map Prod.fst),
        (8, [Ev.render]),
        (9, [Ev.afterRenderCapture]),
        (10, (if st.simulatorRunning then [(Ev.simulatorRender, false)]
          else []).map Prod.fst)] :
        List (Nat × List Ev)).map Prod.snd).flatten := by
    simp [coreUpdateTrace, coreUpdatePlan, corePlanPre, corePlanPreInput,
        corePlanSelecting, corePlanSqueezing, corePlanUpd,
      corePlanPost, List.map_append, List.append_assoc]
  rw [heq]
  exact key

/-! ### Exception semantics of the plan -/

/-- A plan with no throwing step executes completely. -/
theorem runList_benign {l : List (Ev × Bool)} (h : ∀ p ∈ l, p.2 = false) :
    runList l = (l.map Prod.fst, false) := by
  induction l with
  | nil => rfl
  | cons p rest ih =>
    obtain ⟨e, t⟩ := p
    have ht : t = false := h (e, t) (List.mem_cons_self _ _)
    subst ht
    simp [runList, ih fun q hq => h q (List.mem_cons_of_mem _ hq)]

/-- Prepending a benign prefix to a plan. -/
theorem runList_benign_append {l₁ l₂ : List (Ev × Bool)}
    (h : ∀ p ∈ l₁, p.2 = false) :
    runList (l₁ ++ l₂) =
      (l₁.map Prod.fst ++ (runList l₂).1, (runList l₂).2) := by
  induction l₁ with
  | nil => simp
  | cons p rest ih =>
    obtain ⟨e, t⟩ := p
    have ht : t = false := h (e, t) (List.mem_cons_self _ _)
    subst ht
    simp [runList, ih fun q hq => h q (List.mem_cons_of_mem _ hq)]

/-- Once a plan throws, everything appended after it is skipped. -/
theorem runList_append_of_throw {l₁ l₂ : List (Ev × Bool)}
    (h : (runList l₁).2 = true) :
    runList (l₁ ++ l₂) = runList l₁ := by
  induction l₁ with
  | nil => exact absurd h (by decide)
  | cons p rest ih =>
    obtain ⟨e, t⟩ := p
    cases t
    · simp only [runList, Bool.false_eq_true, if_false] at h ⊢
      rw [show runList (rest.append l₂) = runList rest from ih h]
    · simp [runList]

/-- Executing a hook loop whose first throwing script is at index `i`: the
hooks of scripts `0..i` run (script `i`'s hook throws) and the rest of the
loop is skipped. -/
theorem runList_hookPlanAux_first_throw (tag : Nat → Ev) (g : ScriptB → Bool)
    (scripts : List ScriptB) (k i : Nat) (b : ScriptB)
    (hi : scripts[i]? = some b) (hb : g b = true)
    (hprev : ∀ j, j < i → ∀ b2, scripts[j]? = some b2 → g b2 = false) :
    runList (hookPlanAux tag g k scripts) =
      ((List.range (i + 1)).map (fun j => tag (k + j)), true) := by
  induction scripts generalizing k i with
  | nil => simp at hi
  | cons s rest ih =>
    cases i with
    | zero =>
      simp only [List.getElem?_cons_zero, Option.some_inj] at hi
      subst hi
      simp [hookPlanAux, runList, hb, List.range_succ]
    | succ i =>
      have hs : g s = false := hprev 0 (Nat.succ_pos _) s (by simp)
      have hrest := ih (k + 1) i (by simpa using hi)
        (fun j hj b2 hjb => hprev (j + 1) (by omega) b2 (by simpa using hjb))
      simp only [hookPlanAux, runList, hs, Bool.false_eq_true, if_false]
      rw [hrest]
      have hmap : (List.range (i + 1 + 1)).map (fun j => tag (k + j)) =
          tag (k + 0) :: (List.range (i + 1)).map (fun j => tag (k + (j + 1))) := by
        rw [List.range_succ_eq_map, List.map_cons, List.map_map]
        rfl
      have hmap2 : (List.range (i + 1)).map (fun j => tag (k + 1 + j)) =
          (List.range (i + 1)).map (fun j => tag (k + (j + 1))) :=
        List.map_congr_left fun j _ => by
          rw [show k + 1 + j = k + (j + 1) from by omega]
      rw [hmap, hmap2]
      simp

/-- Benign-flag propagation through an appended plan. -/
theorem snd_false_append {l₁ l₂ : List (Ev × Bool)}
    (h₁ : ∀ p ∈ l₁, p.2 = false) (h₂ : ∀ p ∈ l₂, p.2 = false) :
    ∀ p ∈ l₁ ++ l₂, p.2 = false := by
  intro p hp
  rcases List.mem_append.mp hp with h | h
  · exact h₁ p h
  · exact h₂ p h

/-- No step before the continuing-selection pass can throw. -/
theorem corePlanPreInput_benign (st : CoreSt) :
    ∀ p ∈ corePlanPreInput st, p.2 = false := by
  have hhook : ∀ p ∈ hookPlanAux Ev.uxReset (fun _ => false) 0 st.scripts,
      p.2 = false := by
    intro p hp
    obtain ⟨j, b, hj, rfl⟩ := (hookPlanAux_pairs _ _ _ _ _).mp hp
    rfl
  have hifs : ∀ p ∈ (if st.simulatorRunning then
      [(Ev.simulatorStep, false)] else []), (p : Ev × Bool).2 = false := by
    split <;> decide
  have hifl : ∀ p ∈ (if st.hasLighting then
      [(Ev.lightingUpdate, false)] else []), (p : Ev × Bool).2 = false := by
    split <;> decide
  unfold corePlanPreInput
  exact snd_false_append (snd_false_append (snd_false_append
    (snd_false_append (snd_false_append (snd_false_append (by decide) hifs)
    (by decide)) hifl) (by decide)) hhook) (by decide)

/-- When no script's `onSelecting` hook throws, the continuing-selection
pass cannot throw. -/
theorem corePlanSelecting_benign (st : CoreSt)
    (hselb : ∀ s ∈ st.scripts, s.selectingThrows = false) :
    ∀ p ∈ corePlanSelecting st, p.2 = false := by
  intro p hp
  obtain ⟨j, c2, hj, hf, i, b, hi, rfl⟩ :=
    (interactionPlanAux_pairs _ _ _ _ _ _ _).mp hp
  obtain ⟨hlt, hbeq⟩ := List.getElem?_eq_some_iff.mp hi
  exact hselb b (hbeq ▸ List.getElem_mem hlt)

/-- When no script's `onSqueezing` hook throws, the continuing-squeeze pass
cannot throw. -/
theorem corePlanSqueezing_benign (st : CoreSt)
    (hsqb : ∀ s ∈ st.scripts, s.squeezingThrows = false) :
    ∀ p ∈ corePlanSqueezing st, p.2 = false := by
  intro p hp
  obtain ⟨j, c2, hj, hf, i, b, hi, rfl⟩ :=
    (interactionPlanAux_pairs _ _ _ _ _ _ _).mp hp
  obtain ⟨hlt, hbeq⟩ := List.getElem?_eq_some_iff.mp hi
  exact hsqb b (hbeq ▸ List.getElem_mem hlt)

theorem corePlanPre_benign (st : CoreSt)
    (hselb : ∀ s ∈ st.scripts, s.selectingThrows = false)
    (hsqb : ∀ s ∈ st.scripts, s.squeezingThrows = false) :
    ∀ p ∈ corePlanPre st, p.2 = false := by
  unfold corePlanPre
  exact snd_false_append (snd_false_append (snd_false_append
    (corePlanPreInput_benign st) (corePlanSelecting_benign st hselb))
    (corePlanSqueezing_benign st hsqb)) (by decide)

/-- No step with phase above 6 occurs before the update loop. -/
theorem not_mem_corePlanPre_fst {st : CoreSt} {e : Ev} (h : 6 < phase e) :
    e ∉ (corePlanPre st).map Prod.fst := by
  intro hmem
  obtain ⟨p, hp, rfl⟩ := List.mem_map.mp hmem
  exact absurd (corePlanPre_phase st p hp) (by omega)

/-- No step with phase above 3 occurs before the continuing-selection
pass. -/
theorem not_mem_corePlanPreInput_fst {st : CoreSt} {e : Ev}
    (h : 3 < phase e) : e ∉ (corePlanPreInput st).map Prod.fst := by
  intro hmem
  obtain ⟨p, hp, rfl⟩ := List.mem_map.mp hmem
  exact absurd (corePlanPreInput_phase st p hp) (by omega)

/-- Only `onSelecting` steps (phase 4) occur in the continuing-selection
pass. -/
theorem not_mem_corePlanSelecting_fst {st : CoreSt} {e : Ev}
    (h : phase e ≠ 4) : e ∉ (corePlanSelecting st).map Prod.fst := by
  intro hmem
  obtain ⟨p, hp, rfl⟩ := List.mem_map.mp hmem
  exact h (corePlanSelecting_phase st p hp)

/-- Executing a controller/script interaction pass whose first throw happens
at script `i` of controller `c`: `c` is the first controller whose
interaction state is set, scripts `0..i` receive the hook for `c` (script
`i`'s hook throws) and the rest of the pass is skipped. -/
theorem runList_interactionPlanAux_first_throw (scripts : List ScriptB)
    (f : Controller → Bool) (g : ScriptB → Bool) (tag : Nat → Nat → Ev)
    (ctrls : List Controller) (k c : Nat) (ctrl : Controller) (i : Nat)
    (b : ScriptB) (hc : ctrls[c]? = some ctrl) (hf : f ctrl = true)
    (hprevc : ∀ c2, c2 < c → ∀ ctrl2, ctrls[c2]? = some ctrl2 →
      f ctrl2 = false)
    (hi : scripts[i]? = some b) (hg : g b = true)
    (hprevi : ∀ j, j < i → ∀ b2, scripts[j]? = some b2 → g b2 = false) :
    runList (interactionPlanAux scripts f g tag k ctrls) =
      ((List.range (i + 1)).map (tag (k + c)), true) := by
  induction ctrls generalizing k c with
  | nil => simp at hc
  | cons ctrl0 rest ih =>
    cases c with
    | zero =>
      simp only [List.getElem?_cons_zero, Option.some_inj] at hc
      subst hc
      simp only [interactionPlanAux]
      rw [if_pos hf]
      have hhook := runList_hookPlanAux_first_throw (tag k) g scripts 0 i b
        hi hg hprevi
      rw [runList_append_of_throw (by rw [hhook]), hhook]
      simp
    | succ c2 =>
      have h0 : f ctrl0 = false := hprevc 0 (Nat.succ_pos _) ctrl0 (by simp)
      simp only [interactionPlanAux]
      rw [if_neg (by simp [h0]), List.nil_append]
      have hrest := ih (k + 1) c2 (by simpa using hc)
        (fun c3 hc3 ctrl3 hctrl3 =>
          hprevc (c3 + 1) (by omega) ctrl3 (by simpa using hctrl3))
      rw [hrest, show k + 1 + c2 = k + (c2 + 1) from by omega]

/-! ### Claims about the frame loop -/

set_option maxHeartbeats 3200000 in
/-- C1: on every frame cycle the steps run in the fixed order encoded by
`phase`: the pre-sync subsystem updates (phase 0), then the script-set sync
with the scene graph (1), and only then, for the attached entries: transient
interaction state reset (2), input polling (3), continuing-selection events
to entries whose input source is actively selecting (4), continuing-squeeze
events likewise (5), the deferred wait-for-next-frame callback flush (6),
`update(time, frameContext)` on every entry (7), rendering (8) and the
post-render capture hook (9).  The trace is phase-sorted, sync happens
exactly once, every script receives exactly its reset/update steps, and the
continuing-selection/squeeze events go exactly to the scripts of controllers
whose `selected`/`squeezing` state is set. -/
theorem c1_frame_order (st : CoreSt) :
    (coreUpdateTrace st).Pairwise phaseLE ∧
    (coreUpdateTrace st).count Ev.syncScripts = 1 ∧
    (∀ i, Ev.uxReset i ∈ coreUpdateTrace st ↔ i < st.scripts.length) ∧
    (∀ i, Ev.scriptUpdate i ∈ coreUpdateTrace st ↔ i < st.scripts.length) ∧
    Ev.waitFrameFlush ∈ coreUpdateTrace st ∧
    Ev.render ∈ coreUpdateTrace st ∧
    Ev.afterRenderCapture ∈ coreUpdateTrace st ∧
    (∀ c i ctrl, st.controllers[c]? = some ctrl →
      (Ev.onSelecting c i ∈ coreUpdateTrace st ↔
        ctrl.selected = true ∧ i < st.scripts.length)) ∧
    (∀ c i ctrl, st.controllers[c]? = some ctrl →
      (Ev.onSqueezing c i ∈ coreUpdateTrace st ↔
        ctrl.squeezing = true ∧ i < st.scripts.length)) := by
  obtain ⟨sim, light, scripts, ctrls⟩ := st
  refine ⟨coreUpdateTrace_sorted _, ?_, ?_, ?_, ?_, ?_, ?_, ?_, ?_⟩
  · have hUx : Ev.syncScripts ∉ (hookPlanAux Ev.uxReset (fun _ => false)
        0 scripts).map Prod.fst := by
      simp only [hookPlanAux_mem_fst]
      simp
    have hSel : Ev.syncScripts ∉ (interactionPlanAux scripts
        (fun c => c.selected) (fun s => s.selectingThrows) Ev.onSelecting
        0 ctrls).map Prod.fst := by
      simp only [interactionPlanAux_mem_fst]
      simp
    have hSq : Ev.syncScripts ∉ (interactionPlanAux scripts
        (fun c => c.squeezing) (fun s => s.squeezingThrows) Ev.onSqueezing
        0 ctrls).map Prod.fst := by
      simp only [interactionPlanAux_mem_fst]
      simp
    have hUpd : Ev.syncScripts ∉ (hookPlanAux Ev.scriptUpdate
        (fun s => s.updateThrows) 0 scripts).map Prod.fst := by
      simp only [hookPlanAux_mem_fst]
      simp
    cases sim <;> cases light <;>
      simp only [coreUpdateTrace, coreUpdatePlan, corePlanPre, corePlanPreInput,
        corePlanSelecting, corePlanSqueezing, corePlanUpd,
        corePlanPost, List.map_append, List.count_append,
        List.map_cons, List.map_nil, List.append_nil, List.nil_append,
        List.count_eq_zero.mpr hUx, List.count_eq_zero.mpr hSel,
        List.count_eq_zero.mpr hSq, List.count_eq_zero.mpr hUpd] <;>
      simp
  · intro i
    cases sim <;> cases light <;>
      simp [coreUpdateTrace, coreUpdatePlan, corePlanPre, corePlanPreInput,
        corePlanSelecting, corePlanSqueezing, corePlanUpd,
        corePlanPost, hookPlanAux_pairs, interactionPlanAux_pairs,
        List.getElem?_eq_some_iff]
    all_goals
      exact ⟨fun ⟨x, hlt, hx⟩ => hlt, fun hlt => ⟨scripts[i], hlt, rfl⟩⟩
  · intro i
    cases sim <;> cases light <;>
      simp [coreUpdateTrace, coreUpdatePlan, corePlanPre, corePlanPreInput,
        corePlanSelecting, corePlanSqueezing, corePlanUpd,
        corePlanPost, hookPlanAux_pairs, interactionPlanAux_pairs,
        List.getElem?_eq_some_iff]
    all_goals
      refine ⟨fun h => ?_, fun hlt => ?_⟩
      · rcases h with ⟨hlt, hb⟩ | ⟨hlt, hb⟩ <;> exact hlt
      · cases hb : (scripts[i]).updateThrows
        · exact Or.inl ⟨hlt, hb⟩
        · exact Or.inr ⟨hlt, hb⟩
  · cases sim <;> cases light <;>
      simp [coreUpdateTrace, coreUpdatePlan, corePlanPre, corePlanPreInput,
        corePlanSelecting, corePlanSqueezing, corePlanUpd,
        corePlanPost, hookPlanAux_pairs, interactionPlanAux_pairs,
        List.getElem?_eq_some_iff]
  · cases sim <;> cases light <;>
      simp [coreUpdateTrace, coreUpdatePlan, corePlanPre, corePlanPreInput,
        corePlanSelecting, corePlanSqueezing, corePlanUpd,
        corePlanPost, hookPlanAux_pairs, interactionPlanAux_pairs,
        List.getElem?_eq_some_iff]
  · cases sim <;> cases light <;>
      simp [coreUpdateTrace, coreUpdatePlan, corePlanPre, corePlanPreInput,
        corePlanSelecting, corePlanSqueezing, corePlanUpd,
        corePlanPost, hookPlanAux_pairs, interactionPlanAux_pairs,
        List.getElem?_eq_some_iff]
  · intro c i ctrl hc
    simp only at hc
    obtain ⟨hclt, heq⟩ := List.getElem?_eq_some_iff.mp hc
    subst heq
    cases sim <;> cases light <;>
      simp [coreUpdateTrace, coreUpdatePlan, corePlanPre, corePlanPreInput,
        corePlanSelecting, corePlanSqueezing, corePlanUpd,
        corePlanPost, hookPlanAux_pairs, interactionPlanAux_pairs,
        List.getElem?_eq_some_iff]
    all_goals
      refine ⟨fun h => ?_, fun hsl => ?_⟩
      · rcases h with ⟨j, ⟨hjlt, hsel⟩, i2, ⟨rfl, rfl⟩, hlt, hb⟩ |
          ⟨j, ⟨hjlt, hsel⟩, i2, ⟨rfl, rfl⟩, hlt, hb⟩ <;> exact ⟨hsel, hlt⟩
      · obtain ⟨hsel, hlt⟩ := hsl
        cases hb : (scripts[i]).selectingThrows
        · exact Or.inl ⟨c, ⟨hclt, hsel⟩, i, ⟨rfl, rfl⟩, hlt, hb⟩
        · exact Or.inr ⟨c, ⟨hclt, hsel⟩, i, ⟨rfl, rfl⟩, hlt, hb⟩
  · intro c i ctrl hc
    simp only at hc
    obtain ⟨hclt, heq⟩ := List.getElem?_eq_some_iff.mp hc
    subst heq
    cases sim <;> cases light <;>
      simp [coreUpdateTrace, coreUpdatePlan, corePlanPre, corePlanPreInput,
        corePlanSelecting, corePlanSqueezing, corePlanUpd,
        corePlanPost, hookPlanAux_pairs, interactionPlanAux_pairs,
        List.getElem?_eq_some_iff]
    all_goals
      refine ⟨fun h => ?_, fun hsl => ?_⟩
      · rcases h with ⟨j, ⟨hjlt, hsel⟩, i2, ⟨rfl, rfl⟩, hlt, hb⟩ |
          ⟨j, ⟨hjlt, hsel⟩, i2, ⟨rfl, rfl⟩, hlt, hb⟩ <;> exact ⟨hsel, hlt⟩
      · obtain ⟨hsel, hlt⟩ := hsl
        cases hb : (scripts[i]).squeezingThrows
        · exact Or.inl ⟨c, ⟨hclt, hsel⟩, i, ⟨rfl, rfl⟩, hlt, hb⟩
        · exact Or.inr ⟨c, ⟨hclt, hsel⟩, i, ⟨rfl, rfl⟩, hlt, hb⟩

/-- Witness for `c1_frame_order` at a concrete state. -/
theorem c1_frame_order_witness :
    (coreUpdateTrace
        ⟨true, true, [⟨false, false, false⟩], [⟨true, false⟩]⟩).Pairwise
      phaseLE ∧
    (Ev.onSelecting 0 0 ∈ coreUpdateTrace
        ⟨true, true, [⟨false, false, false⟩], [⟨true, false⟩]⟩ ↔
      true = true ∧ 0 < 1) := by
  have h := c1_frame_order ⟨true, true, [⟨false, false, false⟩],
    [⟨true, false⟩]⟩
  exact ⟨h.1, h.2.2.2.2.2.2.2.1 0 0 ⟨true, false⟩ rfl⟩

/-- A state with two scripts where the first script's `update` hook throws
and the second is benign (no controllers active). -/
def throwingScriptSt : CoreSt :=
  { simulatorRunning := false, hasLighting := false,
    scripts := [⟨true, false, false⟩, ⟨false, false, false⟩],
    controllers := [] }

/-- C3 counterexample: the claim says an exception in a single entry's hook
does not prevent the remaining entries' hooks from running in the same
cycle.  `Core.update` has no try/catch around the script loops, so when
script 0's `update` throws, script 1's `update` never runs in that cycle,
the render step is skipped, and the exception escapes the frame cycle. -/
theorem c3_isolation_counterexample :
    (coreUpdateRun throwingScriptSt).2 = true ∧
    Ev.scriptUpdate 0 ∈ (coreUpdateRun throwingScriptSt).1 ∧
    Ev.scriptUpdate 1 ∉ (coreUpdateRun throwingScriptSt).1 ∧
    Ev.render ∉ (coreUpdateRun throwingScriptSt).1 := by
  decide

/-- A state with two scripts where the first script's `onSelecting` hook
throws and one controller is actively selecting. -/
def selectingThrowSt : CoreSt :=
  { simulatorRunning := false, hasLighting := false,
    scripts := [⟨false, true, false⟩, ⟨false, false, false⟩],
    controllers := [⟨true, false⟩] }

/-- A state with two scripts where the first script's `onSqueezing` hook
throws and one controller is actively squeezing. -/
def squeezingThrowSt : CoreSt :=
  { simulatorRunning := false, hasLighting := false,
    scripts := [⟨false, false, true⟩, ⟨false, false, false⟩],
    controllers := [⟨false, true⟩] }

/-- C3 amended: an exception inside a single entry's hook — its `update`,
`onSelecting` or `onSqueezing` — is NOT isolated, since `Core.update` has no
try/catch.  Three parts, one per hook kind, each assuming the named hook is
the first one of the cycle to throw: (1) when script `i` is the first whose
`update` throws, scripts up to `i` receive `update`, every later script's
`update` is skipped and render is skipped; (2) when script `i` is the first
whose `onSelecting` throws (under the first actively-selecting controller
`c`), scripts up to `i` receive `onSelecting`, the later entries of that
dispatch pass receive no hook, the whole squeeze pass, every `update` and
the render step are skipped; (3) symmetrically for `onSqueezing` (the
selecting pass completing without a throw), with every `update` and the
render step skipped.  In each case the exception escapes the cycle. -/
theorem c3_exception_aborts_cycle (st : CoreSt) :
    (∀ i b, (∀ s ∈ st.scripts, s.selectingThrows = false) →
      (∀ s ∈ st.scripts, s.squeezingThrows = false) →
      st.scripts[i]? = some b → b.updateThrows = true →
      (∀ j, j < i → ∀ b2, st.scripts[j]? = some b2 →
        b2.updateThrows = false) →
      (coreUpdateRun st).2 = true ∧
      (∀ j, j ≤ i → Ev.scriptUpdate j ∈ (coreUpdateRun st).1) ∧
      (∀ j, i < j → Ev.scriptUpdate j ∉ (coreUpdateRun st).1) ∧
      Ev.render ∉ (coreUpdateRun st).1) ∧
    (∀ c ctrl i b, st.controllers[c]? = some ctrl → ctrl.selected = true →
      (∀ c2, c2 < c → ∀ ctrl2, st.controllers[c2]? = some ctrl2 →
        ctrl2.selected = false) →
      st.scripts[i]? = some b → b.selectingThrows = true →
      (∀ j, j < i → ∀ b2, st.scripts[j]? = some b2 →
        b2.selectingThrows = false) →
      (coreUpdateRun st).2 = true ∧
      (∀ j, j ≤ i → Ev.onSelecting c j ∈ (coreUpdateRun st).1) ∧
      (∀ j, i < j → Ev.onSelecting c j ∉ (coreUpdateRun st).1) ∧
      (∀ c2 j, Ev.onSqueezing c2 j ∉ (coreUpdateRun st).1) ∧
      (∀ j, Ev.scriptUpdate j ∉ (coreUpdateRun st).1) ∧
      Ev.render ∉ (coreUpdateRun st).1) ∧
    (∀ c ctrl i b, (∀ s ∈ st.scripts, s.selectingThrows = false) →
      st.controllers[c]? = some ctrl → ctrl.squeezing = true →
      (∀ c2, c2 < c → ∀ ctrl2, st.controllers[c2]? = some ctrl2 →
        ctrl2.squeezing = false) →
      st.scripts[i]? = some b → b.squeezingThrows = true →
      (∀ j, j < i → ∀ b2, st.scripts[j]? = some b2 →
        b2.squeezingThrows = false) →
      (coreUpdateRun st).2 = true ∧
      (∀ j, j ≤ i → Ev.onSqueezing c j ∈ (coreUpdateRun st).1) ∧
      (∀ j, i < j → Ev.onSqueezing c j ∉ (coreUpdateRun st).1) ∧
      (∀ j, Ev.scriptUpdate j ∉ (coreUpdateRun st).1) ∧
      Ev.render ∉ (coreUpdateRun st).1) := by
  have hplan : coreUpdatePlan st =
      corePlanPreInput st ++ (corePlanSelecting st ++ (corePlanSqueezing st ++
        ([(Ev.waitFrameFlush, false)] ++
          (corePlanUpd st ++ corePlanPost st)))) := by
    simp only [coreUpdatePlan, corePlanPre, List.append_assoc]
  refine ⟨?_, ?_, ?_⟩
  · intro i b hselb hsqb hi hb hprev
    have hpreb := corePlanPre_benign st hselb hsqb
    have hupd := runList_hookPlanAux_first_throw Ev.scriptUpdate
      (fun s => s.updateThrows) st.scripts 0 i b hi hb hprev
    have hthrow : (runList (corePlanUpd st)).2 = true := by
      unfold corePlanUpd
      rw [hupd]
    have hrun : coreUpdateRun st =
        ((corePlanPre st).map Prod.fst ++
          (List.range (i + 1)).map (fun j => Ev.scriptUpdate (0 + j)),
          true) := by
      unfold coreUpdateRun coreUpdatePlan
      rw [runList_benign_append hpreb, runList_append_of_throw hthrow]
      unfold corePlanUpd
      rw [hupd]
    rw [hrun]
    refine ⟨rfl, ?_, ?_, ?_⟩
    · intro j hj
      refine List.mem_append.mpr (Or.inr ?_)
      simp only [List.mem_map, List.mem_range]
      exact ⟨j, by omega, by simp⟩
    · intro j hj hmem
      rcases List.mem_append.mp hmem with hm | hm
      · exact not_mem_corePlanPre_fst (by simp [phase]) hm
      · simp only [List.mem_map, List.mem_range] at hm
        obtain ⟨a, ha, heq⟩ := hm
        simp only [Nat.zero_add, Ev.scriptUpdate.injEq] at heq
        omega
    · intro hmem
      rcases List.mem_append.mp hmem with hm | hm
      · exact not_mem_corePlanPre_fst (by simp [phase]) hm
      · simp at hm
  · intro c ctrl i b hc hcf hprevc hi hg hprevi
    have hSelC : runList (corePlanSelecting st) =
        ((List.range (i + 1)).map (Ev.onSelecting c), true) := by
      unfold corePlanSelecting
      rw [runList_interactionPlanAux_first_throw st.scripts
        (fun x => x.selected) (fun s => s.selectingThrows) Ev.onSelecting
        st.controllers 0 c ctrl i b hc hcf hprevc hi hg hprevi]
      simp
    have hrun : coreUpdateRun st =
        ((corePlanPreInput st).map Prod.fst ++
          (List.range (i + 1)).map (Ev.onSelecting c), true) := by
      unfold coreUpdateRun
      rw [hplan, runList_benign_append (corePlanPreInput_benign st),
        runList_append_of_throw (by rw [hSelC]), hSelC]
    rw [hrun]
    refine ⟨rfl, ?_, ?_, ?_, ?_, ?_⟩
    · intro j hj
      refine List.mem_append.mpr (Or.inr ?_)
      simp only [List.mem_map, List.mem_range]
      exact ⟨j, by omega, rfl⟩
    · intro j hj hmem
      rcases List.mem_append.mp hmem with hm | hm
      · exact not_mem_corePlanPreInput_fst (by simp [phase]) hm
      · simp only [List.mem_map, List.mem_range] at hm
        obtain ⟨a, ha, heq⟩ := hm
        injection heq with h1 h2
        omega
    · intro c2 j hmem
      rcases List.mem_append.mp hmem with hm | hm
      · exact not_mem_corePlanPreInput_fst (by simp [phase]) hm
      · simp at hm
    · intro j hmem
      rcases List.mem_append.mp hmem with hm | hm
      · exact not_mem_corePlanPreInput_fst (by simp [phase]) hm
      · simp at hm
    · intro hmem
      rcases List.mem_append.mp hmem with hm | hm
      · exact not_mem_corePlanPreInput_fst (by simp [phase]) hm
      · simp at hm
  · intro c ctrl i b hselb hc hcf hprevc hi hg hprevi
    have hSqC : runList (corePlanSqueezing st) =
        ((List.range (i + 1)).map (Ev.onSqueezing c), true) := by
      unfold corePlanSqueezing
      rw [runList_interactionPlanAux_first_throw st.scripts
        (fun x => x.squeezing) (fun s => s.squeezingThrows) Ev.onSqueezing
        st.controllers 0 c ctrl i b hc hcf hprevc hi hg hprevi]
      simp
    have hrun : coreUpdateRun st =
        ((corePlanPreInput st).map Prod.fst ++
          ((corePlanSelecting st).map Prod.fst ++
            (List.range (i + 1)).map (Ev.onSqueezing c)), true) := by
      unfold coreUpdateRun
      rw [hplan, runList_benign_append (corePlanPreInput_benign st),
        runList_benign_append (corePlanSelecting_benign st hselb),
        runList_append_of_throw (by rw [hSqC]), hSqC]
    rw [hrun]
    refine ⟨rfl, ?_, ?_, ?_, ?_⟩
    · intro j hj
      refine List.mem_append.mpr (Or.inr (List.mem_append.mpr (Or.inr ?_)))
      simp only [List.mem_map, List.mem_range]
      exact ⟨j, by omega, rfl⟩
    · intro j hj hmem
      rcases List.mem_append.mp hmem with hm | hm
      · exact not_mem_corePlanPreInput_fst (by simp [phase]) hm
      · rcases List.mem_append.mp hm with hm2 | hm2
        · exact not_mem_corePlanSelecting_fst (by simp [phase]) hm2
        · simp only [List.mem_map, List.mem_range] at hm2
          obtain ⟨a, ha, heq⟩ := hm2
          injection heq with h1 h2
          omega
    · intro j hmem
      rcases List.mem_append.mp hmem with hm | hm
      · exact not_mem_corePlanPreInput_fst (by simp [phase]) hm
      · rcases List.mem_append.mp hm with hm2 | hm2
        · exact not_mem_corePlanSelecting_fst (by simp [phase]) hm2
        · simp at hm2
    · intro hmem
      rcases List.mem_append.mp hmem with hm | hm
      · exact not_mem_corePlanPreInput_fst (by simp [phase]) hm
      · rcases List.mem_append.mp hm with hm2 | hm2
        · exact not_mem_corePlanSelecting_fst (by simp [phase]) hm2
        · simp at hm2

/-- Witness for `c3_exception_aborts_cycle`: all three parts exercised at
concrete two-script states. -/
theorem c3_exception_aborts_cycle_witness :
    ((coreUpdateRun throwingScriptSt).2 = true ∧
      Ev.scriptUpdate 0 ∈ (coreUpdateRun throwingScriptSt).1 ∧
      Ev.scriptUpdate 1 ∉ (coreUpdateRun throwingScriptSt).1) ∧
    ((coreUpdateRun selectingThrowSt).2 = true ∧
      Ev.onSelecting 0 0 ∈ (coreUpdateRun selectingThrowSt).1 ∧
      Ev.onSelecting 0 1 ∉ (coreUpdateRun selectingThrowSt).1 ∧
      Ev.scriptUpdate 1 ∉ (coreUpdateRun selectingThrowSt).1 ∧
      Ev.render ∉ (coreUpdateRun selectingThrowSt).1) ∧
    ((coreUpdateRun squeezingThrowSt).2 = true ∧
      Ev.onSqueezing 0 0 ∈ (coreUpdateRun squeezingThrowSt).1 ∧
      Ev.onSqueezing 0 1 ∉ (coreUpdateRun squeezingThrowSt).1 ∧
      Ev.scriptUpdate 1 ∉ (coreUpdateRun squeezingThrowSt).1 ∧
      Ev.render ∉ (coreUpdateRun squeezingThrowSt).1) := by
  have ha := (c3_exception_aborts_cycle throwingScriptSt).1 0
    ⟨true, false, false⟩ (by decide) (by decide) rfl rfl
    (fun j hj => absurd hj (Nat.not_lt_zero j))
  have hb := (c3_exception_aborts_cycle selectingThrowSt).2.1 0
    ⟨true, false⟩ 0 ⟨false, true, false⟩ rfl rfl
    (fun c2 hc2 => absurd hc2 (Nat.not_lt_zero c2)) rfl rfl
    (fun j hj => absurd hj (Nat.not_lt_zero j))
  have hq := (c3_exception_aborts_cycle squeezingThrowSt).2.2 0
    ⟨false, true⟩ 0 ⟨false, false, true⟩ (by decide) rfl rfl
    (fun c2 hc2 => absurd hc2 (Nat.not_lt_zero c2)) rfl rfl
    (fun j hj => absurd hj (Nat.not_lt_zero j))
  exact ⟨⟨ha.1, ha.2.1 0 (le_refl 0), ha.2.2.1 1 (by omega)⟩,
    ⟨hb.1, hb.2.1 0 (le_refl 0), hb.2.2.1 1 (by omega),
      hb.2.2.2.2.1 1, hb.2.2.2.2.2⟩,
    ⟨hq.1, hq.2.1 0 (le_refl 0), hq.2.2.1 1 (by omega),
      hq.2.2.2.1 1, hq.2.2.2.2⟩⟩

/-- C8: the physics driver runs on its own fixed-interval timer, started by
`Core.init` only when a physics subsystem is configured, with interval
`1000 * timestep` milliseconds; each tick performs exactly one physics-world
integration first, followed by the `physicsStep` hook on every tracked
script; when no physics subsystem is configured no timer is started and no
physics step ever runs; and no physics step ever occurs inside the render
frame cycle (the two cadences are decoupled). -/
theorem c8_physics_driver (timestep : ℚ) (nScripts ticks : Nat)
    (st : CoreSt) :
    coreInitPhysicsTimer (some timestep) = some (1000 * timestep) ∧
    coreInitPhysicsTimer none = none ∧
    (physicsTickTrace nScripts).head? = some Ev.physicsIntegrate ∧
    (physicsTickTrace nScripts).count Ev.physicsIntegrate = 1 ∧
    (∀ i, Ev.physicsHook i ∈ physicsTickTrace nScripts ↔ i < nScripts) ∧
    physicsRun (coreInitPhysicsTimer none) nScripts ticks = [] ∧
    Ev.physicsIntegrate ∉ coreUpdateTrace st ∧
    (∀ i, Ev.physicsHook i ∉ coreUpdateTrace st) := by
  refine ⟨rfl, rfl, rfl, ?_, ?_, rfl, ?_, ?_⟩
  · have h0 : (List.map Ev.physicsHook (List.range nScripts)).count
        Ev.physicsIntegrate = 0 := List.count_eq_zero.mpr (by simp)
    simp [physicsTickTrace, List.count_cons, h0]
  · intro i
    simp [physicsTickTrace]
  · intro hmem
    obtain ⟨p, hp, hfst⟩ := List.mem_map.mp hmem
    have := coreUpdatePlan_phase st p hp
    rw [hfst] at this
    simp [phase] at this
  · intro i hmem
    obtain ⟨p, hp, hfst⟩ := List.mem_map.mp hmem
    have := coreUpdatePlan_phase st p hp
    rw [hfst] at this
    simp [phase] at this

/-! ## Core singleton constructor (Core.ts lines 406–436)

`constructor() { if (Core.instance) { return Core.instance; } Core.instance =
this; ... }` — in JS, returning an object from a constructor makes
`new Core()` evaluate to that object, so every construction after the first
returns the first instance and skips the registrations and scene additions
of the constructor body.  (Field initializers still run before the guard,
but they only create fresh objects; all `registry.register` and `scene.add`
calls sit after the guard.)  The body performs 13 `registry.register` calls
(lines 423–435, `this.user` registered twice) and 5 `scene.add` calls
(lines 417–421). -/

/-- The state of the `Core` class: the static `instance` field (holding the
id of the instance, if any), the number of `registry.register` calls and of
`scene.add` calls performed so far, and a fresh-id counter. -/
structure CoreClassState where
  instanceField : Option Nat
  registerCalls : Nat
  sceneAdds : Nat
  nextId : Nat
deriving DecidableEq, Repr

/-- One evaluation of `new Core()`: returns the resulting object's id and
the new class state. -/
def coreNew (st : CoreClassState) : Nat × CoreClassState :=
  match st.instanceField with
  | some i => (i, st)
  | none =>
      (st.nextId,
        { instanceField := some st.nextId,
          registerCalls := st.registerCalls + 13,
          sceneAdds := st.sceneAdds + 5,
          nextId := st.nextId + 1 })

/-- The class state before any construction. -/
def initialCoreClassState : CoreClassState :=
  { instanceField := none, registerCalls := 0, sceneAdds := 0, nextId := 0 }

/-- Models `n` successive `new Core()` evaluations from the initial class state:
the final class state and the list of returned instance ids. -/
def coreNewSeq : Nat → CoreClassState × List Nat
  | 0 => (initialCoreClassState, [])
  | n + 1 =>
      let p := coreNewSeq n
      let q := coreNew p.1
      (q.2, p.2 ++ [q.1])

/-- Evaluating `new Core()` on a class state whose `instance` field is already
set returns the stored instance and changes nothing. -/
theorem coreNew_of_some {st : CoreClassState} {i : Nat}
    (h : st.instanceField = some i) : coreNew st = (i, st) := by
  unfold coreNew
  rw [h]

/-- C9: at most one `Core` instance ever exists.  For every number `n ≥ 1`
of `new Core()` evaluations, every construction returns the id of the first
instance, the class state is exactly the state after the first construction
(so `Core.instance` is set exactly once and no registration or scene-graph
addition is ever repeated: 13 register calls and 5 scene adds in total). -/
theorem c9_core_singleton (n : Nat) (hn : 1 ≤ n) :
    (coreNewSeq n).1 = (coreNewSeq 1).1 ∧
    (coreNewSeq n).2 = List.replicate n 0 ∧
    (coreNewSeq n).1.instanceField = some 0 ∧
    (coreNewSeq n).1.registerCalls = 13 ∧
    (coreNewSeq n).1.sceneAdds = 5 := by
  have hrep : ∀ k : Nat, List.replicate k (0 : Nat) ++ [0] =
      List.replicate (k + 1) 0 := by
    intro k
    induction k with
    | zero => rfl
    | succ k ihk => simp [List.replicate_succ, ihk]
  induction n with
  | zero => omega
  | succ n ih =>
    cases n with
    | zero => exact ⟨rfl, rfl, rfl, rfl, rfl⟩
    | succ m =>
      obtain ⟨hst, hids, hinst, hreg, hadd⟩ := ih (by omega)
      have hstep : coreNewSeq (m + 1 + 1) =
          ((coreNew (coreNewSeq (m + 1)).1).2,
            (coreNewSeq (m + 1)).2 ++ [(coreNew (coreNewSeq (m + 1)).1).1]) :=
        rfl
      rw [coreNew_of_some hinst] at hstep
      refine ⟨?_, ?_, ?_, ?_, ?_⟩
      · rw [hstep]
        exact hst
      · rw [hstep]
        show (coreNewSeq (m + 1)).2 ++ [0] = List.replicate (m + 1 + 1) 0
        rw [hids]
        exact hrep (m + 1)
      · rw [hstep]
        exact hinst
      · rw [hstep]
        exact hreg
      · rw [hstep]
        exact hadd

/-- Witness for `c9_core_singleton` at three constructions. -/
theorem c9_core_singleton_witness :
    (coreNewSeq 3).1 = (coreNewSeq 1).1 ∧
    (coreNewSeq 3).2 = List.replicate 3 0 ∧
    (coreNewSeq 3).1.instanceField = some 0 ∧
    (coreNewSeq 3).1.registerCalls = 13 ∧
    (coreNewSeq 3).1.sceneAdds = 5 :=
  c9_core_singleton 3 (by decide)

/-! ## PermissionsManager (src/core/components/PermissionsManager.ts)

The browser APIs the manager calls (`navigator.permissions.query`,
`navigator.geolocation.getCurrentPosition`, `getUserMedia`) are external
collaborators; their behavior is reified as a `PermEnv` record.
`getUserMedia(constraints)` resolves iff every requested device is
permitted, which is the standard semantics the code relies on. -/

/-- The `status` field of a `PermissionResult`:
`PermissionState | 'unknown' | 'error'`. -/
inductive PStatus
  | granted
  | denied
  | prompt
  | unknown
  | error
deriving DecidableEq, Repr

/-- Models `PermissionResult` (PermissionsManager.ts lines 4–8). -/
structure PermissionResult where
  granted : Bool
  status : PStatus
  error : Option String
deriving DecidableEq, Repr

/-- The browser environment: results of the non-prompting permission-status
checks, and how the browser answers the prompting requests. -/
structure PermEnv where
  /-- whether `'geolocation' in navigator`. -/
  geoSupported : Bool
  /-- whether `getCurrentPosition` succeeds when requested. -/
  geoGrant : Bool
  /-- the message derived from a failing `getCurrentPosition`. -/
  geoErrMsg : String
  /-- whether `navigator.mediaDevices.getUserMedia` exists. -/
  mediaSupported : Bool
  /-- whether the browser permits camera capture on request. -/
  camGrant : Bool
  /-- whether the browser permits microphone capture on request. -/
  micGrant : Bool
  /-- whether a failing `getUserMedia` rejects with
  `NotFoundError`/`DevicesNotFoundError`. -/
  mediaNotFound : Bool
  /-- the `message` of a failing `getUserMedia` rejection. -/
  mediaErrMsg : String
  /-- Models `checkPermissionStatus('geolocation')`. -/
  checkGeo : PStatus
  /-- Models `checkPermissionStatus('camera')`. -/
  checkCam : PStatus
  /-- Models `checkPermissionStatus('microphone')`. -/
  checkMic : PStatus
deriving DecidableEq, Repr

/-- Models `requestLocationPermission` (lines 19–51). -/
def requestLocationPermission (env : PermEnv) : PermissionResult :=
  if !env.geoSupported then
    ⟨false, PStatus.error,
      some "Geolocation is not supported by this browser."⟩
  else if env.geoGrant then ⟨true, PStatus.granted, none⟩
  else ⟨false, PStatus.denied, some env.geoErrMsg⟩

/-- Models `requestMediaPermission(constraints)` (lines 81–120): rejects when the
Media Devices API is missing; resolves granted when every requested device
is permitted; otherwise reports `Hardware not found.` for not-found errors
and a denied result with the rejection message otherwise. -/
def requestMediaPermission (env : PermEnv) (video audio : Bool) :
    PermissionResult :=
  if !env.mediaSupported then
    ⟨false, PStatus.error,
      some "Media Devices API is not supported by this browser."⟩
  else if (!video || env.camGrant) && (!audio || env.micGrant) then
    ⟨true, PStatus.granted, none⟩
  else if env.mediaNotFound then
    ⟨false, PStatus.error, some "Hardware not found."⟩
  else ⟨false, PStatus.denied, some env.mediaErrMsg⟩

/-- Models `requestMicrophonePermission` (lines 57–59). -/
def requestMicrophonePermission (env : PermEnv) : PermissionResult :=
  requestMediaPermission env false true

/-- Models `requestCameraPermission` (lines 65–67). -/
def requestCameraPermission (env : PermEnv) : PermissionResult :=
  requestMediaPermission env true false

/-- Models `requestAVPermission` (lines 72–74). -/
def requestAVPermission (env : PermEnv) : PermissionResult :=
  requestMediaPermission env true true

/-- The `results` array built by `checkAndRequestPermissions`
(lines 135–179), in push order. -/
def permResults (env : PermEnv) (geolocation camera microphone : Bool) :
    List PermissionResult :=
  (if geolocation then
    [if env.checkGeo = PStatus.granted then ⟨true, PStatus.granted, none⟩
      else requestLocationPermission env]
   else []) ++
  (if camera && microphone then
    [if env.checkCam = PStatus.granted ∧ env.checkMic = PStatus.granted then
        ⟨true, PStatus.granted, none⟩
      else if env.checkCam = PStatus.granted then
        requestMicrophonePermission env
      else if env.checkMic = PStatus.granted then
        requestCameraPermission env
      else requestAVPermission env]
   else if camera then
    [if env.checkCam = PStatus.granted then ⟨true, PStatus.granted, none⟩
      else requestCameraPermission env]
   else if microphone then
    [if env.checkMic = PStatus.granted then ⟨true, PStatus.granted, none⟩
      else requestMicrophonePermission env]
   else [])

/-- Models `checkAndRequestPermissions` (lines 126–205): aggregates the collected
results; with nothing requested it returns granted with status granted. -/
def checkAndRequestPermissions (env : PermEnv)
    (geolocation camera microphone : Bool) : PermissionResult :=
  let results := permResults env geolocation camera microphone
  if results.isEmpty then ⟨true, PStatus.granted, none⟩
  else
    let allGranted := results.all fun r => r.granted
    let anyDenied := results.any fun r => r.status == PStatus.denied
    let anyError := results.any fun r => r.status == PStatus.error
    let errors := String.intercalate " | " (results.filterMap fun r => r.error)
    ⟨allGranted,
      if anyError then PStatus.error
      else if anyDenied then PStatus.denied
      else PStatus.granted,
      if errors = "" then none else some errors⟩

/-- Spec-side reading of "the geolocation permission was granted": it was
already granted per the status check, or the browser granted it when
requested. -/
def specGeoGranted (env : PermEnv) : Prop :=
  env.checkGeo = PStatus.granted ∨
    (env.geoSupported = true ∧ env.geoGrant = true)

/-- Spec-side reading of "the camera permission was granted". -/
def specCamGranted (env : PermEnv) : Prop :=
  env.checkCam = PStatus.granted ∨
    (env.mediaSupported = true ∧ env.camGrant = true)

/-- Spec-side reading of "the microphone permission was granted". -/
def specMicGranted (env : PermEnv) : Prop :=
  env.checkMic = PStatus.granted ∨
    (env.mediaSupported = true ∧ env.micGrant = true)

theorem requestMediaPermission_granted (env : PermEnv) (video audio : Bool) :
    (requestMediaPermission env video audio).granted =
      (env.mediaSupported && (!video || env.camGrant) &&
        (!audio || env.micGrant)) := by
  rcases env with ⟨gs, gg, gm, ms, cg, mg, mnf, mm, c1, c2, c3⟩
  cases ms <;> cases cg <;> cases mg <;> cases mnf <;>
    cases video <;> cases audio <;> rfl

theorem requestLocationPermission_granted (env : PermEnv) :
    (requestLocationPermission env).granted =
      (env.geoSupported && env.geoGrant) := by
  rcases env with ⟨gs, gg, gm, ms, cg, mg, mnf, mm, c1, c2, c3⟩
  cases gs <;> cases gg <;> rfl

/-- The aggregate `granted` flag equals the conjunction over the collected
results. -/
theorem checkAndRequest_granted (env : PermEnv) (g c m : Bool) :
    (checkAndRequestPermissions env g c m).granted =
      (permResults env g c m).all fun r => r.granted := by
  unfold checkAndRequestPermissions
  rcases permResults env g c m with _ | ⟨r, rs⟩ <;> rfl

/-- C10: `checkAndRequestPermissions` returns `granted = true` iff every
individually requested permission ends up granted (already granted per
the status check, or granted by the browser upon the request); with no
permissions requested it returns `granted = true` with status `granted`. -/
theorem c10_permissions_aggregate (env : PermEnv) (g c m : Bool) :
    ((checkAndRequestPermissions env g c m).granted = true ↔
      ((g = true → specGeoGranted env) ∧ (c = true → specCamGranted env) ∧
        (m = true → specMicGranted env))) ∧
    checkAndRequestPermissions env false false false =
      ⟨true, PStatus.granted, none⟩ := by
  refine ⟨?_, rfl⟩
  rw [checkAndRequest_granted]
  cases g <;> cases c <;> cases m <;>
    simp only [permResults, Bool.and_self, Bool.and_true, Bool.true_and,
      Bool.and_false, Bool.false_and, if_true, if_false, List.append_nil,
      List.nil_append, List.all_cons, List.all_nil, Bool.and_true] <;>
    split_ifs <;>
    simp_all [requestMediaPermission_granted, requestLocationPermission_granted,
      requestCameraPermission, requestMicrophonePermission,
      requestAVPermission, specGeoGranted, specCamGranted, specMicGranted]

end XRBlocksSpec
